import Mathlib

/-!
Shallow embedding of the investor-fee-distributor program
(programs/investor-fee-distributor/src), covering the distribution state
machine of distribute.rs, the progress/policy records of state.rs, the
constants of constants.rs, the error enum of errors.rs and the progress
record written by the init handler of initialize.rs.

Modelling conventions:
* u64 / u128 values are Nat; every checked_* operation of the source is
  modelled by an explicit bound check against U64MAX / U128MAX that fails
  with ArithmeticOverflow, exactly as the source maps Option to
  FeeDistributorError::ArithmeticOverflow.  The cast from u128 to u64
  (the "as u64" narrowings of the source) is modelled by toU64, reduction
  mod 2^64.
* The few unchecked integer operations of the source (the u64 addition
  distributable + carry_over_dust and the u8 increment investors_paid += 1)
  abort with a runtime panic when they overflow, as Rust does with
  overflow checks enabled (the standard Anchor build profile); this is the
  CallError.panic outcome, distinct from a clean program error.
* Timestamps (i64 in the source) are modelled as unbounded Int; the claims
  under study never approach the i64 range.
* The token transfer CPI is modelled by a live treasury balance threaded
  through the call: a transfer of more than the live balance fails with
  CallError.insufficientFunds (the SPL token error).  The treasury
  TokenAccount field read at instruction entry (used by
  claim_fees_from_damm and by distribute_remainder_to_creator, which does
  not reload the account after the investor CPIs) is the separate
  treasury_amount argument.
* claim_fees_from_damm returns the treasury balance read at entry, as in
  the source placeholder.
* read_streamflow_locked_amount is abstracted: the remaining accounts of a
  call are modelled as the list of locked amounts (one entry per
  ATA/stream account pair) that the stream parser would return.
* Atomic commit: a call either returns .ok with the new progress record
  plus the executed transfers, or an error with no observable effect,
  matching the all-or-nothing transaction semantics of the host.
-/

/-! ## Constants (constants.rs) -/

def U64MAX : Nat := 18446744073709551615

def U128MAX : Nat := 340282366920938463463374607431768211455

def BASIS_POINTS_DIVISOR : Nat := 10000

def SECONDS_PER_DAY : Int := 86400

def MAX_PAGE_SIZE : Nat := 50

def toU64 (a : Nat) : Nat := a % (U64MAX + 1)

/-! ## Errors (errors.rs) -/

inductive FeeDistributorError where
  | BaseFeesNotAllowed
  | InvalidPoolConfiguration
  | InvalidQuoteMint
  | TooSoonToDistribute
  | DayAlreadyCompleted
  | InvalidPaginationCursor
  | ArithmeticOverflow
  | NoLockedTokens
  | InvalidPageSize
  | DailyCapExceeded
  | InvalidStreamAccount
  | InvalidInvestorATA
  | NotFirstPage
  | PaginationNotSequential
  | InvalidBasisPoints
deriving DecidableEq, Repr

/-- Outcome classification of a failed call: a program error returned by
the handler, a failed token transfer CPI (insufficient treasury funds), or
a Rust runtime panic (slice out of bounds, unchecked overflow). -/
inductive CallError where
  | program (e : FeeDistributorError)
  | insufficientFunds
  | panic
deriving DecidableEq, Repr

/-! ## Records (state.rs) -/

structure DistributionPolicy where
  total_investor_allocation : Nat
  investor_fee_share_bps : Nat
  daily_cap_lamports : Nat
  min_payout_lamports : Nat
deriving DecidableEq, Repr

structure DistributionProgress where
  last_distribution_ts : Int
  current_day_claimed : Nat
  current_day_distributed_investors : Nat
  current_day_distributed_creator : Nat
  carry_over_dust : Nat
  pagination_cursor : Nat
  day_completed : Bool
  total_investors : Nat
deriving DecidableEq, Repr

/-- DistributionProgress::is_new_day. -/
def is_new_day (p : DistributionProgress) (current_ts : Int) : Bool :=
  current_ts ≥ p.last_distribution_ts + SECONDS_PER_DAY

/-- DistributionProgress::start_new_day. -/
def start_new_day (p : DistributionProgress) (current_ts : Int) : DistributionProgress :=
  { p with
    last_distribution_ts := current_ts
    current_day_claimed := 0
    current_day_distributed_investors := 0
    current_day_distributed_creator := 0
    carry_over_dust := 0
    pagination_cursor := 0
    day_completed := false }

/-! ## Checked arithmetic (the checked_* / ok_or(ArithmeticOverflow) source idiom) -/

def chkAdd (a b : Nat) : Except CallError Nat :=
  if a + b ≤ U64MAX then .ok (a + b) else .error (.program .ArithmeticOverflow)

def chkMul64 (a b : Nat) : Except CallError Nat :=
  if a * b ≤ U64MAX then .ok (a * b) else .error (.program .ArithmeticOverflow)

def chkMul128 (a b : Nat) : Except CallError Nat :=
  if a * b ≤ U128MAX then .ok (a * b) else .error (.program .ArithmeticOverflow)

def chkDiv (a b : Nat) : Except CallError Nat :=
  if b = 0 then .error (.program .ArithmeticOverflow) else .ok (a / b)

/-! ## Pure arithmetic of distribute.rs -/

/-- calculate_locked_fraction of distribute.rs: widened u128 multiply and
divide, narrowed back with an "as u64" cast, then capped at 10000. -/
def calculate_locked_fraction (locked_total y0 : Nat) : Except CallError Nat :=
  if y0 = 0 then .ok 0
  else
    match chkMul128 locked_total BASIS_POINTS_DIVISOR with
    | .error e => .error e
    | .ok p =>
      match chkDiv p y0 with
      | .error e => .error e
      | .ok f => .ok (min (toU64 f) BASIS_POINTS_DIVISOR)

/-- The per-investor weight expression of the payout loop of
distribute_to_investors: (locked as u128 * 10000).checked_div(total_locked)
narrowed with "as u64". -/
def weightOf (locked total_locked : Nat) : Except CallError Nat :=
  match chkMul128 locked BASIS_POINTS_DIVISOR with
  | .error e => .error e
  | .ok p =>
    match chkDiv p total_locked with
    | .error e => .error e
    | .ok w => .ok (toU64 w)

/-- The per-investor payout expression of the payout loop:
(distributable as u128 * weight).checked_div(10000) narrowed with "as u64". -/
def payoutOf (distributable weight : Nat) : Except CallError Nat :=
  match chkMul128 distributable weight with
  | .error e => .error e
  | .ok p =>
    match chkDiv p BASIS_POINTS_DIVISOR with
    | .error e => .error e
    | .ok q => .ok (toU64 q)

/-- Step 4 of the payout calculation:
current_day_claimed.checked_mul(eligible_bps).checked_div(10000).
Note that the source performs this checked multiplication in plain u64,
not in the widened u128 domain used elsewhere. -/
def investorFeeQuote (current_day_claimed eligible_bps : Nat) : Except CallError Nat :=
  match chkMul64 current_day_claimed eligible_bps with
  | .error e => .error e
  | .ok p => chkDiv p BASIS_POINTS_DIVISOR

/-- The running checked_add accumulation of locked amounts over a page. -/
def sumLockedAux : Nat → List Nat → Except CallError Nat
  | acc, [] => .ok acc
  | acc, x :: xs =>
    match chkAdd acc x with
    | .error e => .error e
    | .ok acc2 => sumLockedAux acc2 xs

/-- total_locked of distribute_to_investors: the checked sum of the locked
amounts of the page. -/
def sumLockedChecked (page : List Nat) : Except CallError Nat :=
  sumLockedAux 0 page

structure DistributionResult where
  total_distributed : Nat
  remaining_dust : Nat
  investors_paid : Nat
deriving DecidableEq, Repr

/-- The pro-rata payout loop of distribute_to_investors.  Arguments after
the page list: the running available pool, the running total_distributed,
the running investors_paid, and the live treasury balance.  Returns the
final DistributionResult, the list of transfer amounts executed in order,
and the live treasury balance after those transfers.  A payout larger than
the remaining available pool breaks out of the loop (returning what was
accumulated so far); a payout larger than the live treasury balance makes
the transfer CPI fail, aborting the whole call. -/
def payoutLoop (distributable total_locked min_payout : Nat) :
    List Nat → Nat → Nat → Nat → Nat →
    Except CallError (DistributionResult × List Nat × Nat)
  | [], available, total, paid, live => .ok (⟨total, available, paid⟩, [], live)
  | locked :: rest, available, total, paid, live =>
    if locked = 0 then
      payoutLoop distributable total_locked min_payout rest available total paid live
    else
      match weightOf locked total_locked with
      | .error e => .error e
      | .ok w =>
        match payoutOf distributable w with
        | .error e => .error e
        | .ok payout =>
          if payout < min_payout then
            payoutLoop distributable total_locked min_payout rest available total paid live
          else if payout > available then
            .ok (⟨total, available, paid⟩, [], live)
          else if payout > live then
            .error .insufficientFunds
          else
            match chkAdd total payout with
            | .error e => .error e
            | .ok total2 =>
              if paid + 1 > 255 then .error .panic
              else
                match payoutLoop distributable total_locked min_payout rest
                    (available - payout) total2 (paid + 1) (live - payout) with
                | .error e => .error e
                | .ok (res, trace, live2) => .ok (res, payout :: trace, live2)

/-- remaining_cap of distribute_to_investors: the saturating headroom left
under the daily cap, or u64::MAX when the cap is 0 (uncapped). -/
def remainingCap (policy : DistributionPolicy) (progress : DistributionProgress) : Nat :=
  if policy.daily_cap_lamports > 0 then
    policy.daily_cap_lamports - progress.current_day_distributed_investors
  else U64MAX

/-- distribute_to_investors of distribute.rs, over an already-parsed page
of locked amounts.  treasury_live is the actual treasury balance at the
point the investor transfers start. -/
def distribute_to_investors (policy : DistributionPolicy) (progress : DistributionProgress)
    (page : List Nat) (treasury_live : Nat) :
    Except CallError (DistributionResult × List Nat × Nat) :=
  match sumLockedChecked page with
  | .error e => .error e
  | .ok total_locked =>
    if total_locked = 0 then
      .ok (⟨0, progress.carry_over_dust, 0⟩, [], treasury_live)
    else
      match calculate_locked_fraction total_locked policy.total_investor_allocation with
      | .error e => .error e
      | .ok f_locked =>
        match investorFeeQuote progress.current_day_claimed
            (min policy.investor_fee_share_bps f_locked) with
        | .error e => .error e
        | .ok investor_fee_quote =>
          if min investor_fee_quote (remainingCap policy progress)
              + progress.carry_over_dust > U64MAX then .error .panic
          else
            payoutLoop (min investor_fee_quote (remainingCap policy progress))
              total_locked policy.min_payout_lamports page
              (min investor_fee_quote (remainingCap policy progress)
                + progress.carry_over_dust) 0 0 treasury_live

/-- The distributable amount of a page as the source computes it
(min of investor_fee_quote and the remaining cap; 0 when the page has no
locked tokens), recomputed as a standalone function so that conservation
can be stated against it. -/
def pageDistributable (policy : DistributionPolicy) (progress : DistributionProgress)
    (page : List Nat) : Except CallError Nat :=
  match sumLockedChecked page with
  | .error e => .error e
  | .ok total_locked =>
    if total_locked = 0 then .ok 0
    else
      match calculate_locked_fraction total_locked policy.total_investor_allocation with
      | .error e => .error e
      | .ok f_locked =>
        match investorFeeQuote progress.current_day_claimed
            (min policy.investor_fee_share_bps f_locked) with
        | .error e => .error e
        | .ok investor_fee_quote =>
          .ok (min investor_fee_quote (remainingCap policy progress))

/-- distribute_remainder_to_creator of distribute.rs.  treasury_entry is
the TokenAccount amount deserialized at instruction entry (the source does
not reload the account after the investor CPIs); treasury_live is the
actual balance.  Returns the amount transferred and the live balance after. -/
def distribute_remainder_to_creator (progress : DistributionProgress)
    (treasury_entry treasury_live : Nat) : Except CallError (Nat × Nat) :=
  if treasury_entry = 0 then .ok (0, treasury_live)
  else
    let remainder :=
      progress.current_day_claimed - progress.current_day_distributed_investors
    let transfer_amount := min remainder treasury_entry
    if transfer_amount > 0 then
      if transfer_amount > treasury_live then .error .insufficientFunds
      else .ok (transfer_amount, treasury_live - transfer_amount)
    else .ok (transfer_amount, treasury_live)

/-- The new-day / continuation gate at the top of the distribute handler:
on a new day require pagination_cursor = 0, claim fees (the claimed amount
argument models the return of claim_fees_from_damm, which reads the
treasury balance at entry) and reset the day fields; otherwise require the
day not completed and a monotonic clock. -/
def dayTransition (progress : DistributionProgress) (current_ts : Int) (claimed : Nat) :
    Except CallError DistributionProgress :=
  if is_new_day progress current_ts then
    if progress.pagination_cursor ≠ 0 then .error (.program .NotFirstPage)
    else .ok { start_new_day progress current_ts with current_day_claimed := claimed }
  else
    if progress.day_completed then .error (.program .DayAlreadyCompleted)
    else if current_ts < progress.last_distribution_ts then
      .error (.program .TooSoonToDistribute)
    else .ok progress

/-- The progress mutations of the handler after a page: accumulate the
distributed total, store the remaining dust, advance the cursor. -/
def commitPage (p1 : DistributionProgress) (end_idx cddi2 dust : Nat) : DistributionProgress :=
  { p1 with
    current_day_distributed_investors := cddi2
    carry_over_dust := dust
    pagination_cursor := end_idx }

/-- The page-processing tail of the distribute handler, from the slice of
remaining accounts to the final commit.  end_idx is the pagination bound
min(start + page_size, total_investors) already computed by the handler.
Slicing fewer supplied entries than end_idx - start is the source
expression remaining_accounts[0..(end-start)*2], which panics when out of
bounds; extra supplied entries are ignored by the slice. -/
def distributePage (policy : DistributionPolicy) (p1 : DistributionProgress)
    (end_idx : Nat) (treasury_amount : Nat) (supplied : List Nat) :
    Except CallError (DistributionProgress × List Nat × Nat) :=
  if supplied.length < end_idx - p1.pagination_cursor then .error .panic
  else
    match distribute_to_investors policy p1
        (supplied.take (end_idx - p1.pagination_cursor)) treasury_amount with
    | .error e => .error e
    | .ok (res, trace, live) =>
      match chkAdd p1.current_day_distributed_investors res.total_distributed with
      | .error e => .error e
      | .ok cddi2 =>
        if p1.total_investors ≤ end_idx then
          match distribute_remainder_to_creator
              (commitPage p1 end_idx cddi2 res.remaining_dust) treasury_amount live with
          | .error e => .error e
          | .ok (camt, _live2) =>
            .ok ({ commitPage p1 end_idx cddi2 res.remaining_dust with
              current_day_distributed_creator := camt
              day_completed := true }, trace, camt)
        else .ok (commitPage p1 end_idx cddi2 res.remaining_dust, trace, 0)

/-- The distribute handler of distribute.rs.  Arguments: the policy and
progress accounts, the page_size instruction argument, the clock
timestamp, the treasury TokenAccount amount deserialized at entry, and the
locked amounts of the supplied remaining-account pairs.  On success the
committed progress record, the investor transfer amounts in order, and the
creator transfer amount are returned; on any error no state is committed
and no transfer is kept (all-or-nothing transaction semantics). -/
def distribute (policy : DistributionPolicy) (progress : DistributionProgress)
    (page_size : Nat) (current_ts : Int) (treasury_amount : Nat) (supplied : List Nat) :
    Except CallError (DistributionProgress × List Nat × Nat) :=
  if 0 < page_size ∧ page_size ≤ MAX_PAGE_SIZE then
    match dayTransition progress current_ts treasury_amount with
    | .error e => .error e
    | .ok p1 =>
      if p1.pagination_cursor < p1.total_investors then
        distributePage policy p1
          (min (p1.pagination_cursor + page_size) p1.total_investors)
          treasury_amount supplied
      else .error (.program .InvalidPaginationCursor)
  else .error (.program .InvalidPageSize)

/-- The number of investor entries the handler will slice for a call, when
control reaches the slice: end_idx - start_idx with start = the
pagination cursor after the day gate and end = min(start + page_size,
total_investors).  none when an earlier check fails.  The claimed amount
does not influence the bounds, so it is fixed to 0 here. -/
def requiredEntries (progress : DistributionProgress) (page_size : Nat)
    (current_ts : Int) : Option Nat :=
  if 0 < page_size ∧ page_size ≤ MAX_PAGE_SIZE then
    match dayTransition progress current_ts 0 with
    | .error _ => none
    | .ok p1 =>
      if p1.pagination_cursor < p1.total_investors then
        some (min (p1.pagination_cursor + page_size) p1.total_investors
          - p1.pagination_cursor)
      else none
  else none

/-- The init handler of initialize.rs: validates investor_fee_share_bps
against 10000 and writes the initial policy and progress records
(last_distribution_ts = 0 to allow an immediate first distribution; no
validation of total_investors). -/
def init_scope (total_investor_allocation investor_fee_share_bps daily_cap_lamports
    min_payout_lamports total_investors : Nat) :
    Except CallError (DistributionPolicy × DistributionProgress) :=
  if BASIS_POINTS_DIVISOR < investor_fee_share_bps then
    .error (.program .InvalidBasisPoints)
  else
    .ok (⟨total_investor_allocation, investor_fee_share_bps, daily_cap_lamports,
          min_payout_lamports⟩,
         ⟨0, 0, 0, 0, 0, 0, false, total_investors⟩)

/-- One permissionless distribute call: its instruction argument, the
clock value, the treasury balance observed at entry, and the supplied
investor entries. -/
structure CallInput where
  page_size : Nat
  current_ts : Int
  treasury_amount : Nat
  supplied : List Nat
deriving DecidableEq, Repr

/-- A sequence of distribute calls executed in order; none as soon as one
call fails (a failed call commits nothing, so for invariant purposes only
the successful prefix matters). -/
def runCalls (policy : DistributionPolicy) :
    DistributionProgress → List CallInput → Option DistributionProgress
  | pr, [] => some pr
  | pr, c :: cs =>
    match distribute policy pr c.page_size c.current_ts c.treasury_amount c.supplied with
    | .ok (pr2, _, _) => runCalls policy pr2 cs
    | .error _ => none

/-- The payout the loop would execute for one locked amount (0 for a
skipped zero entry), used to bound total_distributed. -/
def payoutTerm (d T x : Nat) : Nat :=
  if x = 0 then 0 else toU64 (d * toU64 (x * BASIS_POINTS_DIVISOR / T) / BASIS_POINTS_DIVISOR)

/-! ## Inversion lemmas for the checked operations -/

theorem chkAdd_ok {a b c : Nat} (h : chkAdd a b = .ok c) : c = a + b ∧ a + b ≤ U64MAX := by
  unfold chkAdd at h
  split at h <;> simp_all

theorem weightOf_ok {x T w : Nat} (h : weightOf x T = .ok w) :
    w = toU64 (x * BASIS_POINTS_DIVISOR / T) ∧ T ≠ 0 := by
  unfold weightOf at h
  split at h
  · cases h
  · rename_i p hmul
    split at h
    · cases h
    · rename_i q hdiv
      unfold chkMul128 at hmul
      unfold chkDiv at hdiv
      split at hmul
      · split at hdiv
        · cases hdiv
        · simp_all
      · cases hmul

theorem payoutOf_ok {d w p : Nat} (h : payoutOf d w = .ok p) :
    p = toU64 (d * w / BASIS_POINTS_DIVISOR) := by
  unfold payoutOf at h
  split at h
  · cases h
  · rename_i q hmul
    split at h
    · cases h
    · rename_i r hdiv
      unfold chkMul128 at hmul
      unfold chkDiv at hdiv
      split at hmul
      · split at hdiv
        · cases hdiv
        · simp_all
      · cases hmul

theorem sumLockedAux_ok : ∀ (l : List Nat) (acc t : Nat),
    sumLockedAux acc l = .ok t → t = acc + l.sum := by
  intro l
  induction l with
  | nil =>
    intro acc t h
    unfold sumLockedAux at h
    simp_all
  | cons x xs ih =>
    intro acc t h
    unfold sumLockedAux at h
    split at h
    · cases h
    · rename_i acc2 hadd
      obtain ⟨he, _⟩ := chkAdd_ok hadd
      subst he
      have := ih _ _ h
      simp only [List.sum_cons]
      omega

theorem sumLockedChecked_ok {l : List Nat} {t : Nat}
    (h : sumLockedChecked l = .ok t) : t = l.sum := by
  have := sumLockedAux_ok l 0 t h
  omega

theorem sumLockedChecked_zero : ∀ (l : List Nat), l.sum = 0 →
    sumLockedChecked l = .ok 0 := by
  intro l
  unfold sumLockedChecked
  induction l with
  | nil => intro _; rfl
  | cons x xs ih =>
    intro h
    simp only [List.sum_cons] at h
    have hx : x = 0 := by omega
    have hxs : xs.sum = 0 := by omega
    subst hx
    unfold sumLockedAux
    have : chkAdd 0 0 = .ok 0 := rfl
    rw [this]
    exact ih hxs

/-! ## Arithmetic lemmas for the pro-rata bound -/

theorem div_add_div_le (a b c : Nat) : a / c + b / c ≤ (a + b) / c := by
  rcases Nat.eq_zero_or_pos c with hc | hc
  · subst hc; simp
  · rw [Nat.le_div_iff_mul_le hc, Nat.add_mul]
    exact Nat.add_le_add (Nat.div_mul_le_self a c) (Nat.div_mul_le_self b c)

theorem list_sum_div_le (l : List Nat) (c : Nat) :
    (l.map (fun x => x / c)).sum ≤ l.sum / c := by
  induction l with
  | nil => simp
  | cons x xs ih =>
    simp only [List.map_cons, List.sum_cons]
    calc x / c + (xs.map (fun y => y / c)).sum
        ≤ x / c + xs.sum / c := Nat.add_le_add_left ih _
      _ ≤ (x + xs.sum) / c := div_add_div_le _ _ _

theorem sum_map_mul_const (l : List Nat) (c : Nat) :
    (l.map (fun x => x * c)).sum = l.sum * c := by
  induction l with
  | nil => simp
  | cons x xs ih => simp [ih, Nat.add_mul]

theorem sum_map_const_mul (l : List Nat) (f : Nat → Nat) (c : Nat) :
    (l.map (fun x => c * f x)).sum = c * (l.map f).sum := by
  induction l with
  | nil => simp
  | cons x xs ih => simp [ih, Nat.mul_add]

theorem payoutTerm_le (d T x : Nat) :
    payoutTerm d T x ≤ d * (x * BASIS_POINTS_DIVISOR / T) / BASIS_POINTS_DIVISOR := by
  unfold payoutTerm toU64
  split
  · exact Nat.zero_le _
  · calc d * (x * BASIS_POINTS_DIVISOR / T % (U64MAX + 1)) / BASIS_POINTS_DIVISOR
          % (U64MAX + 1)
        ≤ d * (x * BASIS_POINTS_DIVISOR / T % (U64MAX + 1)) / BASIS_POINTS_DIVISOR :=
          Nat.mod_le _ _
      _ ≤ d * (x * BASIS_POINTS_DIVISOR / T) / BASIS_POINTS_DIVISOR :=
          Nat.div_le_div_right (Nat.mul_le_mul_left _ (Nat.mod_le _ _))

theorem sum_payoutTerm_le (d T : Nat) (l : List Nat) (hT : 0 < T) (hsum : l.sum ≤ T) :
    (l.map (payoutTerm d T)).sum ≤ d := by
  have h1 : (l.map (payoutTerm d T)).sum
      ≤ (l.map (fun x => d * (x * BASIS_POINTS_DIVISOR / T) / BASIS_POINTS_DIVISOR)).sum :=
    List.sum_le_sum (fun x _ => payoutTerm_le d T x)
  have h2 : (l.map (fun x => d * (x * BASIS_POINTS_DIVISOR / T) / BASIS_POINTS_DIVISOR)).sum
      ≤ (l.map (fun x => d * (x * BASIS_POINTS_DIVISOR / T))).sum / BASIS_POINTS_DIVISOR := by
    have h := list_sum_div_le (l.map (fun x => d * (x * BASIS_POINTS_DIVISOR / T)))
      BASIS_POINTS_DIVISOR
    rw [List.map_map] at h
    exact h
  have h3 : (l.map (fun x => d * (x * BASIS_POINTS_DIVISOR / T))).sum
      = d * (l.map (fun x => x * BASIS_POINTS_DIVISOR / T)).sum :=
    sum_map_const_mul l _ d
  have h4 : (l.map (fun x => x * BASIS_POINTS_DIVISOR / T)).sum ≤ BASIS_POINTS_DIVISOR := by
    have h5 : (l.map (fun x => x * BASIS_POINTS_DIVISOR / T)).sum
        ≤ (l.map (fun x => x * BASIS_POINTS_DIVISOR)).sum / T := by
      have h := list_sum_div_le (l.map (fun x => x * BASIS_POINTS_DIVISOR)) T
      rw [List.map_map] at h
      exact h
    rw [sum_map_mul_const] at h5
    calc (l.map (fun x => x * BASIS_POINTS_DIVISOR / T)).sum
        ≤ l.sum * BASIS_POINTS_DIVISOR / T := h5
      _ ≤ T * BASIS_POINTS_DIVISOR / T :=
          Nat.div_le_div_right (Nat.mul_le_mul_right _ hsum)
      _ = BASIS_POINTS_DIVISOR := Nat.mul_div_cancel_left _ hT
  calc (l.map (payoutTerm d T)).sum
      ≤ d * (l.map (fun x => x * BASIS_POINTS_DIVISOR / T)).sum / BASIS_POINTS_DIVISOR := by
        rw [← h3]; exact le_trans h1 h2
    _ ≤ d * BASIS_POINTS_DIVISOR / BASIS_POINTS_DIVISOR :=
        Nat.div_le_div_right (Nat.mul_le_mul_left _ h4)
    _ = d := Nat.mul_div_cancel _ (by norm_num [BASIS_POINTS_DIVISOR])

/-! ## Payout loop lemmas -/

theorem payoutLoop_conservation :
    ∀ (l : List Nat) (d T m available total paid live : Nat)
      (res : DistributionResult) (trace : List Nat) (live2 : Nat),
    payoutLoop d T m l available total paid live = .ok (res, trace, live2) →
    res.total_distributed + res.remaining_dust = total + available := by
  intro l
  induction l with
  | nil =>
    intro d T m available total paid live res trace live2 h
    unfold payoutLoop at h
    simp only [Except.ok.injEq, Prod.mk.injEq] at h
    obtain ⟨h1, -, -⟩ := h
    rw [← h1]
  | cons x xs ih =>
    intro d T m available total paid live res trace live2 h
    unfold payoutLoop at h
    split at h
    · exact ih d T m available total paid live res trace live2 h
    · split at h
      · cases h
      · rename_i w hw
        split at h
        · cases h
        · rename_i payout hp
          split at h
          · exact ih d T m available total paid live res trace live2 h
          · split at h
            · rename_i hbreak
              simp only [Except.ok.injEq, Prod.mk.injEq] at h
              obtain ⟨h1, -, -⟩ := h
              rw [← h1]
            · split at h
              · cases h
              · split at h
                · cases h
                · rename_i hlive total2 hadd
                  split at h
                  · cases h
                  · split at h
                    · cases h
                    · rename_i res0 trace0 live0 hrec
                      simp only [Except.ok.injEq, Prod.mk.injEq] at h
                      obtain ⟨h1, -, -⟩ := h
                      subst h1
                      have hrec2 := ih d T m (available - payout) total2 (paid + 1)
                        (live - payout) res0 trace0 live0 hrec
                      obtain ⟨he, -⟩ := chkAdd_ok hadd
                      subst he
                      rename_i hmin hbreak _
                      rw [hrec2]
                      omega

theorem payoutLoop_total_le :
    ∀ (l : List Nat) (d T m available total paid live : Nat)
      (res : DistributionResult) (trace : List Nat) (live2 : Nat),
    payoutLoop d T m l available total paid live = .ok (res, trace, live2) →
    res.total_distributed ≤ total + (l.map (payoutTerm d T)).sum := by
  intro l
  induction l with
  | nil =>
    intro d T m available total paid live res trace live2 h
    unfold payoutLoop at h
    simp only [Except.ok.injEq, Prod.mk.injEq] at h
    obtain ⟨h1, -, -⟩ := h
    rw [← h1]
    simp
  | cons x xs ih =>
    intro d T m available total paid live res trace live2 h
    unfold payoutLoop at h
    split at h
    · rename_i hx
      have := ih d T m available total paid live res trace live2 h
      simp only [List.map_cons, List.sum_cons, payoutTerm, hx, if_pos]
      omega
    · rename_i hx
      split at h
      · cases h
      · rename_i w hw
        split at h
        · cases h
        · rename_i payout hp
          have hpt : payout = payoutTerm d T x := by
            obtain ⟨hw2, hT⟩ := weightOf_ok hw
            have hp2 := payoutOf_ok hp
            unfold payoutTerm
            rw [if_neg hx, hp2, hw2]
          split at h
          · have := ih d T m available total paid live res trace live2 h
            simp only [List.map_cons, List.sum_cons]
            omega
          · split at h
            · simp only [Except.ok.injEq, Prod.mk.injEq] at h
              obtain ⟨h1, -, -⟩ := h
              rw [← h1]
              simp only [List.map_cons, List.sum_cons]
              omega
            · split at h
              · cases h
              · split at h
                · cases h
                · rename_i hlive total2 hadd
                  split at h
                  · cases h
                  · split at h
                    · cases h
                    · rename_i res0 trace0 live0 hrec
                      simp only [Except.ok.injEq, Prod.mk.injEq] at h
                      obtain ⟨h1, -, -⟩ := h
                      subst h1
                      have hrec2 := ih d T m (available - payout) total2 (paid + 1)
                        (live - payout) res0 trace0 live0 hrec
                      obtain ⟨he, -⟩ := chkAdd_ok hadd
                      subst he
                      simp only [List.map_cons, List.sum_cons]
                      omega

/-! ## distribute_to_investors specification lemma -/

theorem d2i_ok_spec {pol : DistributionPolicy} {pr : DistributionProgress}
    {page : List Nat} {tr : Nat} {res : DistributionResult}
    {trace : List Nat} {live : Nat}
    (h : distribute_to_investors pol pr page tr = .ok (res, trace, live)) :
    ∃ d, pageDistributable pol pr page = .ok d ∧
      res.total_distributed + res.remaining_dust = d + pr.carry_over_dust ∧
      res.total_distributed ≤ d ∧ d ≤ remainingCap pol pr := by
  unfold distribute_to_investors at h
  split at h
  · cases h
  · rename_i T hsum
    split at h
    · rename_i hT0
      simp only [Except.ok.injEq, Prod.mk.injEq] at h
      obtain ⟨h1, -, -⟩ := h
      refine ⟨0, ?_, ?_, ?_, Nat.zero_le _⟩
      · unfold pageDistributable
        rw [hsum]
        simp [hT0]
      · rw [← h1]
      · rw [← h1]
    · rename_i hT0
      split at h
      · cases h
      · rename_i f hf
        split at h
        · cases h
        · rename_i q hq
          split at h
          · cases h
          · have hcons := payoutLoop_conservation page
              (min q (remainingCap pol pr)) T pol.min_payout_lamports
              (min q (remainingCap pol pr) + pr.carry_over_dust) 0 0 tr res trace live h
            have hle := payoutLoop_total_le page
              (min q (remainingCap pol pr)) T pol.min_payout_lamports
              (min q (remainingCap pol pr) + pr.carry_over_dust) 0 0 tr res trace live h
            have hTsum := sumLockedChecked_ok hsum
            have hbound := sum_payoutTerm_le (min q (remainingCap pol pr)) T page
              (Nat.pos_of_ne_zero hT0) (le_of_eq hTsum.symm)
            refine ⟨min q (remainingCap pol pr), ?_, by omega, by omega,
              Nat.min_le_right _ _⟩
            unfold pageDistributable
            rw [hsum]
            simp only [hT0, if_false]
            simp only [hf, hq]

/-! ## Day transition lemmas -/

theorem dayTransition_ok_cases {pr : DistributionProgress} {ts : Int} {c : Nat}
    {p1 : DistributionProgress} (h : dayTransition pr ts c = .ok p1) :
    (is_new_day pr ts = true ∧ pr.pagination_cursor = 0 ∧
      p1 = { start_new_day pr ts with current_day_claimed := c }) ∨
    (is_new_day pr ts = false ∧ pr.day_completed = false ∧
      pr.last_distribution_ts ≤ ts ∧ p1 = pr) := by
  unfold dayTransition at h
  split at h
  · rename_i hnd
    split at h
    · cases h
    · rename_i hcur
      left
      simp only [Except.ok.injEq] at h
      exact ⟨hnd, by omega, h.symm⟩
  · rename_i hnd
    split at h
    · cases h
    · rename_i hdone
      split at h
      · cases h
      · rename_i hts
        right
        simp only [Except.ok.injEq] at h
        refine ⟨by simpa using hnd, by simpa using hdone, by omega, h.symm⟩

theorem dayTransition_notFirstPage {pr : DistributionProgress} {ts : Int} (c : Nat)
    (hnd : is_new_day pr ts = true) (hcur : pr.pagination_cursor ≠ 0) :
    dayTransition pr ts c = .error (.program .NotFirstPage) := by
  unfold dayTransition
  rw [hnd]
  simp [hcur]

theorem dayTransition_dayCompleted {pr : DistributionProgress} {ts : Int} (c : Nat)
    (hnd : is_new_day pr ts = false) (hdone : pr.day_completed = true) :
    dayTransition pr ts c = .error (.program .DayAlreadyCompleted) := by
  unfold dayTransition
  rw [hnd, hdone]
  simp

/-! ## Cap preservation -/

theorem distributePage_cap {pol : DistributionPolicy} {p1 : DistributionProgress}
    {end_idx tr : Nat} {s : List Nat} {pr2 : DistributionProgress}
    {trace : List Nat} {camt : Nat}
    (h : distributePage pol p1 end_idx tr s = .ok (pr2, trace, camt))
    (hcap : 0 < pol.daily_cap_lamports)
    (hle : p1.current_day_distributed_investors ≤ pol.daily_cap_lamports) :
    pr2.current_day_distributed_investors ≤ pol.daily_cap_lamports := by
  unfold distributePage at h
  split at h
  · cases h
  · split at h
    · cases h
    · rename_i res trace0 live hd2i
      split at h
      · cases h
      · rename_i cddi2 hadd
        obtain ⟨d, -, -, hresd, hdrc⟩ := d2i_ok_spec hd2i
        obtain ⟨he, -⟩ := chkAdd_ok hadd
        have hrc : remainingCap pol p1
            = pol.daily_cap_lamports - p1.current_day_distributed_investors := by
          unfold remainingCap
          rw [if_pos hcap]
        rw [hrc] at hdrc
        split at h
        · split at h
          · cases h
          · simp only [Except.ok.injEq, Prod.mk.injEq] at h
            obtain ⟨h1, -, -⟩ := h
            rw [← h1]
            simp only [commitPage]
            omega
        · simp only [Except.ok.injEq, Prod.mk.injEq] at h
          obtain ⟨h1, -, -⟩ := h
          rw [← h1]
          simp only [commitPage]
          omega

theorem distribute_cap_preserved {pol : DistributionPolicy}
    {pr : DistributionProgress} {ps : Nat} {ts : Int} {tr : Nat} {s : List Nat}
    {pr2 : DistributionProgress} {trace : List Nat} {camt : Nat}
    (h : distribute pol pr ps ts tr s = .ok (pr2, trace, camt))
    (hcap : 0 < pol.daily_cap_lamports)
    (hle : pr.current_day_distributed_investors ≤ pol.daily_cap_lamports) :
    pr2.current_day_distributed_investors ≤ pol.daily_cap_lamports := by
  unfold distribute at h
  split at h
  · split at h
    · cases h
    · rename_i p1 hdt
      split at h
      · have hp1 : p1.current_day_distributed_investors ≤ pol.daily_cap_lamports := by
          rcases dayTransition_ok_cases hdt with ⟨-, -, hp⟩ | ⟨-, -, -, hp⟩
          · subst hp
            simp [start_new_day]
          · subst hp
            exact hle
        exact distributePage_cap h hcap hp1
      · cases h
  · cases h

/-! ## C7 machinery: the entry count the handler will slice -/

theorem dayTransition_shape {pr : DistributionProgress} {ts : Int} {a : Nat} (b : Nat)
    {p : DistributionProgress} (h : dayTransition pr ts a = .ok p) :
    ∃ q, dayTransition pr ts b = .ok q ∧ q.pagination_cursor = p.pagination_cursor ∧
      q.total_investors = p.total_investors := by
  rcases dayTransition_ok_cases h with ⟨hnd, hcur, hp⟩ | ⟨hnd, hdone, hts, hp⟩
  · refine ⟨{ start_new_day pr ts with current_day_claimed := b }, ?_, ?_, ?_⟩
    · unfold dayTransition
      rw [hnd]
      simp [hcur]
    · subst hp; rfl
    · subst hp; rfl
  · refine ⟨pr, ?_, by rw [hp], by rw [hp]⟩
    unfold dayTransition
    rw [hnd]
    have h2 : ¬ (ts < pr.last_distribution_ts) := by omega
    simp [hdone, h2]

/-! ## Claim theorems -/

/-- C1 (code_bug evidence): for every progress record in which the day is
completed and the cursor sits at total_investors > 0 (the state every
successful day-closing call leaves behind), a distribute call after the
24-hour gate does NOT begin a new day: it fails with NotFirstPage, because
the handler requires pagination_cursor = 0 before resetting the day fields
and nothing ever resets the cursor of a completed day.  The claim says
such a call successfully begins the new day. -/
theorem completed_day_new_day_call_fails (pol : DistributionPolicy)
    (pr : DistributionProgress) (ps : Nat) (ts : Int) (tr : Nat) (s : List Nat)
    (_hdone : pr.day_completed = true)
    (hcur : pr.pagination_cursor = pr.total_investors)
    (htot : 0 < pr.total_investors)
    (hps1 : 0 < ps) (hps2 : ps ≤ MAX_PAGE_SIZE)
    (hts : pr.last_distribution_ts + SECONDS_PER_DAY ≤ ts) :
    distribute pol pr ps ts tr s = .error (.program .NotFirstPage) := by
  have hnd : is_new_day pr ts = true := by
    unfold is_new_day
    simp only [ge_iff_le, decide_eq_true_eq]
    omega
  have hcur0 : pr.pagination_cursor ≠ 0 := by omega
  unfold distribute
  rw [if_pos ⟨hps1, hps2⟩, dayTransition_notFirstPage tr hnd hcur0]

/-- C1 witness: the concrete completed day (2 investors, cursor 2) with
the gate elapsed fails with NotFirstPage. -/
theorem completed_day_new_day_call_fails_witness :
    distribute ⟨0, 0, 0, 0⟩ ⟨100000, 100, 100, 0, 0, 2, true, 2⟩ 1 200000 0 []
      = .error (.program .NotFirstPage) :=
  completed_day_new_day_call_fails ⟨0, 0, 0, 0⟩ ⟨100000, 100, 100, 0, 0, 2, true, 2⟩
    1 200000 0 [] rfl rfl (by decide) (by decide) (by decide) (by decide)

/-- C2 (code_bug evidence): a two-page day in which both pages are fully
locked pays out current_day_claimed on EACH page (the handler recomputes
investor_fee_quote from the full current_day_claimed on every page and,
with daily_cap_lamports = 0, nothing subtracts what was already paid), so
after the second page current_day_distributed_investors = 200 exceeds
current_day_claimed = 100, violating the claimed commit-boundary
invariant.  The second call is a successful commit (the treasury was
topped up to 500 mid-day, e.g. by a permissionless deposit). -/
theorem two_page_day_exceeds_claimed :
    distribute ⟨100, 10000, 0, 0⟩ ⟨0, 0, 0, 0, 0, 0, false, 2⟩ 1 100000 100 [100]
      = .ok (⟨100000, 100, 100, 0, 0, 1, false, 2⟩, [100], 0) ∧
    distribute ⟨100, 10000, 0, 0⟩ ⟨100000, 100, 100, 0, 0, 1, false, 2⟩ 1 100000 500 [100]
      = .ok (⟨100000, 100, 200, 0, 0, 2, true, 2⟩, [100], 0) ∧
    ¬ ((200 : Nat) ≤ 100) :=
  ⟨rfl, rfl, by omega⟩

/-- C3: along any sequence of successful distribute calls, when
daily_cap_lamports > 0, current_day_distributed_investors never exceeds
daily_cap_lamports: the per-page total distributed never exceeds the
remaining cap, even though carry-over dust pads the available pool above
distributable. -/
theorem cap_never_exceeded (pol : DistributionPolicy)
    (pr pr2 : DistributionProgress) (calls : List CallInput)
    (hcap : 0 < pol.daily_cap_lamports)
    (h0 : pr.current_day_distributed_investors ≤ pol.daily_cap_lamports)
    (hrun : runCalls pol pr calls = some pr2) :
    pr2.current_day_distributed_investors ≤ pol.daily_cap_lamports := by
  induction calls generalizing pr with
  | nil =>
    unfold runCalls at hrun
    simp only [Option.some.injEq] at hrun
    rw [← hrun]
    exact h0
  | cons c cs ih =>
    unfold runCalls at hrun
    split at hrun
    · rename_i q t cr heq
      exact ih q (distribute_cap_preserved heq hcap h0) hrun
    · cases hrun

/-- C3 witness: a one-call day under a cap of 30 distributes exactly 30
and the final record stays at the cap. -/
theorem cap_never_exceeded_witness :
    (⟨172800, 100, 30, 70, 0, 1, true, 1⟩ : DistributionProgress).current_day_distributed_investors
      ≤ (⟨100, 10000, 30, 0⟩ : DistributionPolicy).daily_cap_lamports :=
  cap_never_exceeded ⟨100, 10000, 30, 0⟩ ⟨0, 0, 0, 0, 0, 0, false, 1⟩
    ⟨172800, 100, 30, 70, 0, 1, true, 1⟩ [⟨1, 172800, 100, [100]⟩]
    (by decide) (by decide) rfl

/-- C4: conservation of the payout calculation: on every page on which
distribute_to_investors succeeds, total_distributed + remaining_dust
equals distributable + carry_over_dust_in, where distributable is
min(investor_fee_quote, remaining_cap) (and 0 when the page has no locked
tokens), as computed by pageDistributable. -/
theorem payout_page_conservation (pol : DistributionPolicy)
    (pr : DistributionProgress) (page : List Nat) (tr : Nat)
    (res : DistributionResult) (trace : List Nat) (live : Nat)
    (h : distribute_to_investors pol pr page tr = .ok (res, trace, live)) :
    ∃ d, pageDistributable pol pr page = .ok d ∧
      res.total_distributed + res.remaining_dust = d + pr.carry_over_dust := by
  obtain ⟨d, h1, h2, -, -⟩ := d2i_ok_spec h
  exact ⟨d, h1, h2⟩

/-- C4 witness: a concrete page with incoming dust 3 and distributable 10
conserves 10 + 3 = 13. -/
theorem payout_page_conservation_witness :
    ∃ d, pageDistributable ⟨10, 10000, 0, 0⟩ ⟨0, 10, 0, 0, 3, 0, false, 1⟩ [10] = .ok d ∧
      (10 : Nat) + 3 = d + 3 :=
  payout_page_conservation ⟨10, 10000, 0, 0⟩ ⟨0, 10, 0, 0, 3, 0, false, 1⟩ [10] 100
    ⟨10, 3, 1⟩ [10] 90 rfl

/-- C5 counterexample: with the day completed and the 24-hour gate not yet
elapsed, distribute fails with DayAlreadyCompleted, not with the
TooSoonToDistribute required by the claim (the handler checks
day_completed before the clock). -/
theorem completed_day_too_soon_counterexample :
    distribute ⟨0, 0, 0, 0⟩ ⟨100000, 100, 100, 0, 0, 2, true, 2⟩ 1 100001 0 []
      = .error (.program .DayAlreadyCompleted) ∧
    CallError.program .DayAlreadyCompleted ≠ CallError.program .TooSoonToDistribute :=
  ⟨rfl, by decide⟩

/-- C5 amended: for every progress record with the day completed, a
distribute call before last_distribution_ts + 86400 fails, but with
DayAlreadyCompleted (the day-completed check precedes the clock check). -/
theorem completed_day_before_gate_fails (pol : DistributionPolicy)
    (pr : DistributionProgress) (ps : Nat) (ts : Int) (tr : Nat) (s : List Nat)
    (hps1 : 0 < ps) (hps2 : ps ≤ MAX_PAGE_SIZE)
    (hdone : pr.day_completed = true)
    (hts : ts < pr.last_distribution_ts + SECONDS_PER_DAY) :
    distribute pol pr ps ts tr s = .error (.program .DayAlreadyCompleted) := by
  have hnd : is_new_day pr ts = false := by
    unfold is_new_day
    simp only [ge_iff_le, decide_eq_false_iff_not, not_le]
    omega
  unfold distribute
  rw [if_pos ⟨hps1, hps2⟩, dayTransition_dayCompleted tr hnd hdone]

/-- C5 amended witness: the concrete completed day called one second after
closing fails with DayAlreadyCompleted. -/
theorem completed_day_before_gate_fails_witness :
    distribute ⟨0, 0, 0, 0⟩ ⟨100000, 100, 100, 0, 0, 2, true, 2⟩ 1 100001 0 []
      = .error (.program .DayAlreadyCompleted) :=
  completed_day_before_gate_fails ⟨0, 0, 0, 0⟩ ⟨100000, 100, 100, 0, 0, 2, true, 2⟩
    1 100001 0 [] (by decide) (by decide) rfl (by decide)

/-- C6 counterexample: the step-4 computation is a checked u64
multiplication, not a widened one: with current_day_claimed = 2^60 and
eligible_bps = 10000 it fails with ArithmeticOverflow, both in isolation
and through a full distribute call (Y0 = 1, one fully locked investor). -/
theorem quote_overflow_counterexample :
    investorFeeQuote (2 ^ 60) 10000 = .error (.program .ArithmeticOverflow) ∧
    distribute ⟨1, 10000, 0, 0⟩ ⟨0, 0, 0, 0, 0, 0, false, 1⟩ 1 86400 (2 ^ 60) [1]
      = .error (.program .ArithmeticOverflow) :=
  ⟨rfl, rfl⟩

/-- C6 amended: the step-4 computation succeeds (with the floored value)
exactly when claimed * eligible_bps fits in u64, and otherwise fails with
ArithmeticOverflow: the multiplication is checked in u64, not widened. -/
theorem quote_characterization (claimed bps : Nat)
    (_hbps : bps ≤ BASIS_POINTS_DIVISOR) :
    investorFeeQuote claimed bps =
      if claimed * bps ≤ U64MAX then .ok (claimed * bps / BASIS_POINTS_DIVISOR)
      else .error (.program .ArithmeticOverflow) := by
  unfold investorFeeQuote chkMul64 chkDiv
  by_cases hc : claimed * bps ≤ U64MAX
  · simp only [if_pos hc]
    simp [BASIS_POINTS_DIVISOR]
  · simp only [if_neg hc]

/-- C6 amended witness: a small product evaluates to the floored quote. -/
theorem quote_characterization_witness :
    investorFeeQuote 5 10000 =
      if 5 * 10000 ≤ U64MAX then .ok (5 * 10000 / BASIS_POINTS_DIVISOR)
      else .error (.program .ArithmeticOverflow) :=
  quote_characterization 5 10000 (by decide)

/-- C7 counterexample: a call supplying 2 entries where end - start = 1 is
NOT rejected: it succeeds, silently processing only the first entry. -/
theorem extra_entries_not_rejected :
    requiredEntries ⟨0, 0, 0, 0, 0, 0, false, 1⟩ 1 86400 = some 1 ∧
    ([0, 7] : List Nat).length ≠ 1 ∧
    distribute ⟨100, 10000, 0, 0⟩ ⟨0, 0, 0, 0, 0, 0, false, 1⟩ 1 86400 0 [0, 7]
      = .ok (⟨86400, 0, 0, 0, 0, 1, true, 1⟩, [], 0) :=
  ⟨rfl, by decide, rfl⟩

/-- C7 amended: a call with fewer than end - start entries aborts with a
runtime panic (slice out of bounds), not a clean error; a call with more
entries is not rejected at all: it behaves exactly as if only the first
end - start entries had been supplied. -/
theorem entry_count_behavior (pol : DistributionPolicy) (pr : DistributionProgress)
    (ps : Nat) (ts : Int) (tr : Nat) (supplied : List Nat) (k : Nat)
    (hk : requiredEntries pr ps ts = some k) :
    (supplied.length < k → distribute pol pr ps ts tr supplied = .error .panic) ∧
    (supplied.length = k → ∀ extra : List Nat,
      distribute pol pr ps ts tr (supplied ++ extra)
        = distribute pol pr ps ts tr supplied) := by
  unfold requiredEntries at hk
  split at hk
  · rename_i hps
    split at hk
    · cases hk
    · rename_i p0 hdt0
      split at hk
      · rename_i hcl
        simp only [Option.some.injEq] at hk
        obtain ⟨p1, hdt, hc, ht⟩ := dayTransition_shape tr hdt0
        have hset : ∀ l : List Nat, distribute pol pr ps ts tr l
            = distributePage pol p1
                (min (p1.pagination_cursor + ps) p1.total_investors) tr l := by
          intro l
          unfold distribute
          rw [if_pos hps]
          simp only [hdt]
          rw [if_pos (by rw [hc, ht]; exact hcl)]
        have hkk : min (p1.pagination_cursor + ps) p1.total_investors
            - p1.pagination_cursor = k := by
          rw [hc, ht]
          exact hk
        constructor
        · intro hlen
          rw [hset supplied]
          unfold distributePage
          rw [hkk, if_pos hlen]
        · intro hlen extra
          rw [hset (supplied ++ extra), hset supplied]
          unfold distributePage
          rw [hkk]
          rw [if_neg (show ¬ ((supplied ++ extra).length < k) by
            simp only [List.length_append]; omega)]
          rw [if_neg (show ¬ (supplied.length < k) by omega)]
          have htake : (supplied ++ extra).take k = supplied.take k := by
            rw [← hlen, List.take_left, List.take_length]
          rw [htake]
      · cases hk
  · cases hk

/-- C7 amended witness: an empty supply where 2 entries are required
panics, and an extra entry beyond the single required one changes nothing. -/
theorem entry_count_behavior_witness :
    distribute ⟨1, 0, 0, 0⟩ ⟨0, 0, 0, 0, 0, 0, false, 2⟩ 2 86400 0 [] = .error .panic ∧
    distribute ⟨1, 0, 0, 0⟩ ⟨0, 0, 0, 0, 0, 0, false, 1⟩ 1 86400 0 ([5] ++ [7])
      = distribute ⟨1, 0, 0, 0⟩ ⟨0, 0, 0, 0, 0, 0, false, 1⟩ 1 86400 0 [5] :=
  ⟨(entry_count_behavior ⟨1, 0, 0, 0⟩ ⟨0, 0, 0, 0, 0, 0, false, 2⟩ 2 86400 0 [] 2
      rfl).1 (by decide),
   (entry_count_behavior ⟨1, 0, 0, 0⟩ ⟨0, 0, 0, 0, 0, 0, false, 1⟩ 1 86400 0 [5] 1
      rfl).2 rfl [7]⟩

/-- C8: scenario A evaluated concretely: Y0 = 1000000, locked
{400000, 100000}, investor_fee_share_bps = 8000, current_day_claimed =
100000, no cap, min_payout 1000, no dust, nothing distributed yet:
f_locked = 5000 bps, quote = 50000, weights 8000 / 2000 bps, payouts
40000 / 10000, both paid, total 50000, dust 0. -/
theorem scenario_a_exact :
    calculate_locked_fraction 500000 1000000 = .ok 5000 ∧
    investorFeeQuote 100000 (min 8000 5000) = .ok 50000 ∧
    weightOf 400000 500000 = .ok 8000 ∧
    weightOf 100000 500000 = .ok 2000 ∧
    distribute_to_investors ⟨1000000, 8000, 0, 1000⟩ ⟨0, 100000, 0, 0, 0, 0, false, 2⟩
      [400000, 100000] 1000000 = .ok (⟨50000, 0, 2⟩, [40000, 10000], 950000) :=
  ⟨rfl, rfl, rfl, rfl, rfl⟩

/-- C9: a page whose locked amounts sum to zero succeeds with zero
distributed, zero investors paid, no transfers, and the dust unchanged. -/
theorem zero_locked_page_no_distribution (pol : DistributionPolicy)
    (pr : DistributionProgress) (page : List Nat) (tr : Nat)
    (h : page.sum = 0) :
    distribute_to_investors pol pr page tr
      = .ok (⟨0, pr.carry_over_dust, 0⟩, [], tr) := by
  unfold distribute_to_investors
  rw [sumLockedChecked_zero page h]
  rfl

/-- C9 witness: a two-entry all-zero page leaves the dust of 9 unchanged
and transfers nothing. -/
theorem zero_locked_page_no_distribution_witness :
    distribute_to_investors ⟨5, 5, 5, 5⟩ ⟨0, 0, 0, 0, 9, 0, false, 3⟩ [0, 0] 42
      = .ok (⟨0, 9, 0⟩, [], 42) :=
  zero_locked_page_no_distribution ⟨5, 5, 5, 5⟩ ⟨0, 0, 0, 0, 9, 0, false, 3⟩ [0, 0] 42 rfl

/-- C10: a scope created with total_investors = 0 (accepted by the init
handler without validation) makes every valid-page-size distribute call at
any non-negative time fail with InvalidPaginationCursor, on the new-day
path (the cursor bound start < total_investors fails after the reset) and
on the continuation path alike; the error aborts the call with no
committed progress change and no transfer. -/
theorem zero_investor_scope_unusable (y0 share cap minp : Nat)
    (pol : DistributionPolicy) (pr : DistributionProgress)
    (ps : Nat) (ts : Int) (tr : Nat) (s : List Nat)
    (hinit : init_scope y0 share cap minp 0 = .ok (pol, pr))
    (hps1 : 0 < ps) (hps2 : ps ≤ MAX_PAGE_SIZE) (hts : 0 ≤ ts) :
    distribute pol pr ps ts tr s = .error (.program .InvalidPaginationCursor) := by
  unfold init_scope at hinit
  split at hinit
  · cases hinit
  · simp only [Except.ok.injEq, Prod.mk.injEq] at hinit
    obtain ⟨-, hpr⟩ := hinit
    subst hpr
    unfold distribute
    rw [if_pos ⟨hps1, hps2⟩]
    rcases Bool.eq_false_or_eq_true
        (is_new_day ⟨0, 0, 0, 0, 0, 0, false, 0⟩ ts) with hnd | hnd
    · have hdt : dayTransition ⟨0, 0, 0, 0, 0, 0, false, 0⟩ ts tr
          = .ok ⟨ts, tr, 0, 0, 0, 0, false, 0⟩ := by
        unfold dayTransition
        rw [hnd]
        rfl
      rw [hdt]
      rfl
    · have hdt : dayTransition ⟨0, 0, 0, 0, 0, 0, false, 0⟩ ts tr
          = .ok ⟨0, 0, 0, 0, 0, 0, false, 0⟩ := by
        unfold dayTransition
        rw [hnd]
        have h2 : ¬ (ts < (0 : Int)) := by omega
        simp [h2]
      rw [hdt]
      rfl

/-- C10 witness: a freshly created zero-investor scope rejects a page-size
1 call at time 50000 with InvalidPaginationCursor. -/
theorem zero_investor_scope_unusable_witness :
    distribute ⟨7, 100, 0, 0⟩ ⟨0, 0, 0, 0, 0, 0, false, 0⟩ 1 50000 3 [4]
      = .error (.program .InvalidPaginationCursor) :=
  zero_investor_scope_unusable 7 100 0 0 ⟨7, 100, 0, 0⟩ ⟨0, 0, 0, 0, 0, 0, false, 0⟩
    1 50000 3 [4] rfl (by decide) (by decide) (by decide)
